import Mathlib

/-! # Verification of `gateway/models/users/user.go`

A shallow embedding of the user-account model of the gateway: the records
`User`, `NewUser` and `Updates`, and the methods `NewUser.Validate`,
`NewUser.ToUser`, `User.FullName`, `User.SetPassword`, `User.Authenticate`
and `User.ApplyUpdates`.

Conventions of the embedding.

* A Go `string` is a Lean `String`; `len(s)` is the number of bytes of its
  UTF-8 encoding (`goLen`), and `[]byte(s)` is that encoding (`goBytes`).
* A Go `error` is `Option (GoError E)`, `none` being `nil`.
* A method with a pointer receiver `*User` returns the receiver after the call
  next to its Go result.
* The library functions the file imports (`mail.ParseAddress`,
  `bcrypt.GenerateFromPassword`, `bcrypt.CompareHashAndPassword`) are not part
  of the repository: they are the fields of a parameter `Lib E`, and theorems
  hold for every such library unless they state an assumption on it.
* Process-wide state read or written by the code (the package variable
  `bcryptCost`, the wall clock, the random source behind the salt, and a trace
  of the calls made to the hash primitive) is the record `World`.
-/

namespace Users

/-! ## Go values -/

/-- Byte sequences, Go `[]byte`; the nil slice is the empty list. -/
abbrev Bytes := List UInt8

/-- Go `len(s)` for a string: the number of bytes of the UTF-8 encoding. -/
def goLen (s : String) : Nat := s.utf8ByteSize

/-- Go `[]byte(s)`: the UTF-8 encoding of the string. -/
def goBytes (s : String) : Bytes := s.toUTF8.data.toList

/-- Go `error` values met in this package: those built by `fmt.Errorf` with a
constant message (user.go:67, 70, 73, 133) and those handed back by a library
call. -/
inductive GoError (E : Type) where
  | errorf (msg : String)
  | lib (e : E)
  deriving DecidableEq, Repr

/-- The imported library functions, as used by the package.
`parseAddress s` is the error result of `mail.ParseAddress(s)` (the address it
returns is discarded at user.go:65).  `generateFromPassword rng pw cost` is
`bcrypt.GenerateFromPassword(pw, cost)` when the random source is in state
`rng`.  `compareHashAndPassword h pw` is the error result of
`bcrypt.CompareHashAndPassword(h, pw)`. -/
structure Lib (E : Type) where
  parseAddress : String → Option E
  generateFromPassword : Nat → Bytes → Int → Except E Bytes
  compareHashAndPassword : Bytes → Bytes → Option E

/-- A wall-clock reading, as far as the layout of user.go:89 looks at it. -/
structure Time where
  year : Int
  month : Nat
  day : Nat
  deriving DecidableEq, Repr

/-- Process-wide state: the package variable `bcryptCost` (user.go:13), the
clock `time.Now()` reads, the state of the random source the hash primitive
draws its salt from, and the arguments of every call made so far to
`bcrypt.GenerateFromPassword`, most recent first. -/
structure World where
  bcryptCost : Int
  now : Time
  rng : Nat
  hashCalls : List (Bytes × Int)
  deriving DecidableEq, Repr

/-- The initial value of the package variable, `var bcryptCost = 13`. -/
def bcryptCostDefault : Int := 13

/-! ## Records (user.go:17-60) -/

/-- Go struct `User`, user.go:17-24. -/
structure User where
  ID : Int
  Email : String
  PassHash : Bytes
  FirstName : String
  LastName : String
  JoinDate : String
  deriving DecidableEq, Repr

/-- Go struct `NewUser`, user.go:33-39. -/
structure NewUser where
  Email : String
  Password : String
  PasswordConf : String
  FirstName : String
  LastName : String
  deriving DecidableEq, Repr

/-- Go struct `Updates`, user.go:42-45. -/
structure Updates where
  FirstName : String
  LastName : String
  deriving DecidableEq, Repr

/-- The zero value `&User{}` of user.go:85. -/
def User.zero : User := ⟨0, "", [], "", "", ""⟩

/-! ## `time.Time.Format("01-02-2006")` -/

/-- Decimal digits of an unsigned number, most significant first. -/
def utoa (u : Nat) : List Char := Nat.toDigits 10 u

/-- Go `time.appendInt(b, x, width)`: an optional minus sign, then the decimal
digits of the magnitude, left-padded with zeros to `width` digits.  The two
branches for 2-digit and 4-digit fields are the library's table look-ups
`tensDigits`/`onesDigits`; the last is its general path. -/
def appendInt (x : Int) (width : Nat) : List Char :=
  let u := x.natAbs
  let sign : List Char := if x < 0 then ['-'] else []
  if width = 2 ∧ u < 100 then
    sign ++ [Nat.digitChar (u / 10), Nat.digitChar (u % 10)]
  else if width = 4 ∧ u < 10000 then
    sign ++ [Nat.digitChar (u / 100 / 10), Nat.digitChar (u / 100 % 10),
             Nat.digitChar (u % 100 / 10), Nat.digitChar (u % 100 % 10)]
  else
    sign ++ List.replicate (width - (utoa u).length) '0' ++ utoa u

/-- The result of `t.Format("01-02-2006")`: the layout is the zero-padded month
(`01`), a literal `-`, the zero-padded day (`02`), a literal `-`, and the long
year (`2006`). -/
def Time.formatJoinDate (t : Time) : String :=
  String.mk (appendInt t.month 2 ++ ['-'] ++ appendInt t.day 2 ++ ['-'] ++ appendInt t.year 4)

/-! ## Methods (user.go:62-138) -/

/-- Go `strings.Compare(a, b)`: -1, 0 or 1 by byte-wise lexicographic order. -/
def stringsCompare (a b : String) : Int :=
  if a = b then 0 else if a < b then -1 else 1

/-- Method `func (nu *NewUser) Validate() error`, user.go:64-76. -/
def NewUser.Validate {E : Type} (L : Lib E) (nu : NewUser) : Option (GoError E) :=
  match L.parseAddress nu.Email with
  | some _ => some (GoError.errorf "Invalid Email")
  | none =>
    if goLen nu.Password < 6 then
      some (GoError.errorf "Password must be at least 6 characters")
    else if goLen nu.Password ≠ goLen nu.PasswordConf
        ∨ stringsCompare nu.Password nu.PasswordConf ≠ 0 then
      some (GoError.errorf "Password and confirmation do not match")
    else none

/-- Method `func (u *User) SetPassword(password string) error`, user.go:114-121.
The call to the hash primitive is appended to the trace and advances the
random source, whether it succeeds or not. -/
def User.SetPassword {E : Type} (L : Lib E) (w : World) (u : User) (password : String) :
    World × User × Option (GoError E) :=
  let w1 : World := ⟨w.bcryptCost, w.now, w.rng + 1, (goBytes password, 10) :: w.hashCalls⟩
  match L.generateFromPassword w.rng (goBytes password) 10 with
  | Except.error err => (w1, u, some (GoError.lib err))
  | Except.ok temp =>
    (w1, ⟨u.ID, u.Email, temp, u.FirstName, u.LastName, u.JoinDate⟩, none)

/-- Method `func (nu *NewUser) ToUser() (*User, error)`, user.go:80-94.  The error
returned by `user.SetPassword` at user.go:91 is dropped by the source. -/
def NewUser.ToUser {E : Type} (L : Lib E) (w : World) (nu : NewUser) :
    World × Option User × Option (GoError E) :=
  match NewUser.Validate L nu with
  | some err => (w, none, some err)
  | none =>
    let user0 := User.zero
    let user1 : User := ⟨user0.ID, user0.Email, user0.PassHash, nu.FirstName, user0.LastName, user0.JoinDate⟩
    let user2 : User := ⟨user1.ID, user1.Email, user1.PassHash, user1.FirstName, nu.LastName, user1.JoinDate⟩
    let user3 : User := ⟨user2.ID, nu.Email, user2.PassHash, user2.FirstName, user2.LastName, user2.JoinDate⟩
    let joinDate := w.now.formatJoinDate
    let user4 : User := ⟨user3.ID, user3.Email, user3.PassHash, user3.FirstName, user3.LastName, joinDate⟩
    let r := User.SetPassword L w user4 nu.Password
    (r.1, some r.2.1, none)

/-- Method `func (u *User) FullName() string`, user.go:101-111. -/
def User.FullName (u : User) : User × String :=
  if goLen u.FirstName = 0 ∧ goLen u.LastName = 0 then (u, "")
  else if goLen u.FirstName = 0 then (u, u.LastName)
  else if goLen u.LastName = 0 then (u, u.FirstName)
  else (u, u.FirstName ++ " " ++ u.LastName)

/-- Method `func (u *User) Authenticate(password string) error`, user.go:125-127. -/
def User.Authenticate {E : Type} (L : Lib E) (u : User) (password : String) :
    User × Option (GoError E) :=
  (u, (L.compareHashAndPassword u.PassHash (goBytes password)).map GoError.lib)

/-- Method `func (u *User) ApplyUpdates(updates *Updates) error`, user.go:131-138. -/
def User.ApplyUpdates (E : Type) (u : User) (updates : Updates) : User × Option (GoError E) :=
  if updates.FirstName = "" ∧ updates.LastName = "" then
    (u, some (GoError.errorf "names cannot both be null"))
  else
    let u1 : User := ⟨u.ID, u.Email, u.PassHash, updates.FirstName, u.LastName, u.JoinDate⟩
    let u2 : User := ⟨u1.ID, u1.Email, u1.PassHash, u1.FirstName, updates.LastName, u1.JoinDate⟩
    (u2, none)

/-! ## A stand-in library for concrete evaluation

The theorems below quantify over every library `Lib E`.  To evaluate the
methods at concrete inputs a library value is needed; `stubLib` is a small
executable one with the failure conditions of the real functions (no `@` in the
address; a password of more than 72 bytes; a cost outside 4..31; a digest too
short to be one) and with no cryptographic content. -/

/-- Errors of the stand-in library. -/
inductive StubError where
  | missingAt
  | passwordTooLong
  | invalidCost
  | hashTooShort
  | mismatchedHashAndPassword
  deriving DecidableEq, Repr

/-- The stand-in library: an address parses when it holds an `@`; a digest is
the cost byte, a salt byte drawn from the random source, and the password
bytes; comparison checks the bytes after the two-byte header. -/
def stubLib : Lib StubError where
  parseAddress s := if '@' ∈ s.toList then none else some StubError.missingAt
  generateFromPassword rng pw cost :=
    if 72 < pw.length then Except.error StubError.passwordTooLong
    else if cost < 4 ∨ 31 < cost then Except.error StubError.invalidCost
    else Except.ok (UInt8.ofNat cost.toNat :: UInt8.ofNat rng :: pw)
  compareHashAndPassword h pw :=
    match h with
    | _ :: _ :: rest => if rest = pw then none else some StubError.mismatchedHashAndPassword
    | _ => some StubError.hashTooShort

/-- A world at start-up: `bcryptCost` holds its initial value, no hash call has
been made, and the clock reads 4 November 2026. -/
def world0 : World := ⟨bcryptCostDefault, ⟨2026, 11, 4⟩, 0, []⟩

/-- A password of 73 bytes, one more than the hash primitive takes. -/
def longPassword : String :=
  "aaaaaaaaaaaaaaaaaaaaaaaaaaaaaaaaaaaaaaaaaaaaaaaaaaaaaaaaaaaaaaaaaaaaaaaaa"

/-- A signup request that passes validation and whose password the hash
primitive rejects. -/
def longPasswordRequest : NewUser :=
  ⟨"ann@example.com", longPassword, longPassword, "Ann", "Lee"⟩

/-- The account `ToUser` has built when it reaches the call of `SetPassword`
(user.go:85-90): the request's names and email, the formatted date, no
identifier and no digest. -/
def NewUser.draft (w : World) (nu : NewUser) : User :=
  ⟨0, nu.Email, [], nu.FirstName, nu.LastName, w.now.formatJoinDate⟩

/-- The world after one call of the hash primitive on `password`. -/
def World.afterHash (w : World) (password : String) : World :=
  ⟨w.bcryptCost, w.now, w.rng + 1, (goBytes password, 10) :: w.hashCalls⟩

/-! ## JSON encoding of the records

The package makes no call to `encoding/json`; what the encoder writes for a
record is fixed by the struct tags of user.go:17-60.  The encoder's rule for a
struct is `jsonStruct`; the field tables are those of the source. -/

/-- Go struct `Orgs`, user.go:48-51. -/
structure Orgs where
  OrgID : Int
  OrgTitle : String

/-- Go struct `UserOrgs`, user.go:54-60.  An element of `Orgs` is a pointer,
`none` being nil. -/
structure UserOrgs where
  ID : Int
  Email : String
  FirstName : String
  LastName : String
  Orgs : List (Option Orgs)

/-- JSON documents as the encoder builds them for these records: numbers,
strings, byte slices (written in base64), arrays and objects with their members
in order. -/
inductive JSON where
  | null
  | num (n : Int)
  | str (s : String)
  | bytes (b : Bytes)
  | arr (items : List JSON)
  | obj (members : List (String × JSON))

/-- The rule of `encoding/json` for a struct, given its fields in declaration
order as pairs of the name in the `json` tag and the encoded value: a field
tagged `-` is left out, every other field is a member under its tag name. -/
def jsonStruct (fields : List (String × JSON)) : JSON :=
  JSON.obj (fields.filter (fun f => f.1 != "-"))

/-- The encoding of a `User`, from the tags of user.go:18-23. -/
def User.json (u : User) : JSON :=
  jsonStruct [("id", JSON.num u.ID), ("-", JSON.str u.Email), ("-", JSON.bytes u.PassHash),
    ("firstName", JSON.str u.FirstName), ("lastName", JSON.str u.LastName),
    ("joinDate", JSON.str u.JoinDate)]

/-- The encoding of an `Orgs`, from the tags of user.go:49-50. -/
def Orgs.json (o : Orgs) : JSON :=
  jsonStruct [("OrgID", JSON.num o.OrgID), ("OrgTitle", JSON.str o.OrgTitle)]

/-- The encoding of a `UserOrgs`, from the tags of user.go:55-59; a nil element
of `Orgs` is written as null. -/
def UserOrgs.json (uo : UserOrgs) : JSON :=
  jsonStruct [("id", JSON.num uo.ID), ("-", JSON.str uo.Email),
    ("firstName", JSON.str uo.FirstName), ("lastName", JSON.str uo.LastName),
    ("orgs", JSON.arr (uo.Orgs.map (fun o =>
      match o with
      | none => JSON.null
      | some org => org.json)))]

/-! ## Shared lemmas -/

theorem stringsCompare_eq_zero_iff (a b : String) : stringsCompare a b = 0 ↔ a = b := by
  unfold stringsCompare
  by_cases h : a = b
  · simp [h]
  · by_cases h2 : a < b <;> simp [h, h2]

theorem validate_of_parse_error {E : Type} (L : Lib E) (nu : NewUser) (e : E)
    (h : L.parseAddress nu.Email = some e) :
    NewUser.Validate L nu = some (GoError.errorf "Invalid Email") := by
  simp [NewUser.Validate, h]

theorem validate_of_short {E : Type} (L : Lib E) (nu : NewUser)
    (h : L.parseAddress nu.Email = none) (hlen : goLen nu.Password < 6) :
    NewUser.Validate L nu = some (GoError.errorf "Password must be at least 6 characters") := by
  simp [NewUser.Validate, h, hlen]

theorem validate_of_mismatch {E : Type} (L : Lib E) (nu : NewUser)
    (h : L.parseAddress nu.Email = none) (hlen : 6 ≤ goLen nu.Password)
    (hne : nu.Password ≠ nu.PasswordConf) :
    NewUser.Validate L nu = some (GoError.errorf "Password and confirmation do not match") := by
  have h6 : ¬ goLen nu.Password < 6 := by omega
  simp [NewUser.Validate, h, h6, stringsCompare_eq_zero_iff, hne]

theorem validate_of_ok {E : Type} (L : Lib E) (nu : NewUser)
    (h : L.parseAddress nu.Email = none) (hlen : 6 ≤ goLen nu.Password)
    (heq : nu.Password = nu.PasswordConf) :
    NewUser.Validate L nu = none := by
  have h6 : ¬ goLen nu.Password < 6 := by omega
  unfold NewUser.Validate
  rw [h]
  simp only [if_neg h6]
  rw [if_neg]
  simp [heq, stringsCompare_eq_zero_iff]

theorem errors_distinct (E : Type) :
    (GoError.errorf "Invalid Email" : GoError E)
        ≠ GoError.errorf "Password must be at least 6 characters"
      ∧ (GoError.errorf "Invalid Email" : GoError E)
        ≠ GoError.errorf "Password and confirmation do not match"
      ∧ (GoError.errorf "Password must be at least 6 characters" : GoError E)
        ≠ GoError.errorf "Password and confirmation do not match" := by
  refine ⟨?_, ?_, ?_⟩ <;> simp

/-! ## Signup validation -/

/-- C1. `Validate` returns nil exactly when the email parses, the password has
length at least 6 and the confirmation is identical to the password in length
and content; the first and last name do not influence the outcome. -/
theorem validate_nil_iff {E : Type} (L : Lib E) (nu : NewUser) :
    (NewUser.Validate L nu = none ↔
      L.parseAddress nu.Email = none ∧ 6 ≤ goLen nu.Password
        ∧ goLen nu.Password = goLen nu.PasswordConf ∧ nu.Password = nu.PasswordConf)
    ∧ ∀ fn ln : String,
        NewUser.Validate L ⟨nu.Email, nu.Password, nu.PasswordConf, fn, ln⟩
          = NewUser.Validate L nu := by
  refine ⟨?_, fun fn ln => rfl⟩
  constructor
  · intro hv
    cases hp : L.parseAddress nu.Email with
    | some e => rw [validate_of_parse_error L nu e hp] at hv; cases hv
    | none =>
      by_cases hlen : goLen nu.Password < 6
      · rw [validate_of_short L nu hp hlen] at hv; cases hv
      · by_cases heq : nu.Password = nu.PasswordConf
        · exact ⟨rfl, by omega, by rw [← heq], heq⟩
        · rw [validate_of_mismatch L nu hp (by omega) heq] at hv; cases hv
  · rintro ⟨hp, hlen, -, heq⟩
    exact validate_of_ok L nu hp hlen heq

/-- C2. The rules are checked in the order email, length, confirmation, and the
first failing rule decides the failure: an unparseable email gives the email
failure whatever the passwords are; a parseable email with a password shorter
than 6 gives the too-short failure whatever the confirmation is; the mismatch
failure is returned exactly when the email parses, the password has length at
least 6 and the confirmation differs; the three failures are pairwise distinct.
For a parser that accepts only addresses holding an `@`, the email
"not-an-email" is rejected with the email failure, the password "abc" is
rejected, and the password "secret1" with confirmation "secret2" is rejected. -/
theorem validate_first_failure_wins {E : Type} (L : Lib E) (nu : NewUser)
    (hAt : ∀ s : String, L.parseAddress s = none → '@' ∈ s.toList) :
    (L.parseAddress nu.Email ≠ none →
        NewUser.Validate L nu = some (GoError.errorf "Invalid Email"))
    ∧ (L.parseAddress nu.Email = none → goLen nu.Password < 6 →
        NewUser.Validate L nu
          = some (GoError.errorf "Password must be at least 6 characters"))
    ∧ (NewUser.Validate L nu = some (GoError.errorf "Password and confirmation do not match")
        ↔ L.parseAddress nu.Email = none ∧ 6 ≤ goLen nu.Password
          ∧ nu.Password ≠ nu.PasswordConf)
    ∧ ((GoError.errorf "Invalid Email" : GoError E)
          ≠ GoError.errorf "Password must be at least 6 characters"
        ∧ (GoError.errorf "Invalid Email" : GoError E)
          ≠ GoError.errorf "Password and confirmation do not match"
        ∧ (GoError.errorf "Password must be at least 6 characters" : GoError E)
          ≠ GoError.errorf "Password and confirmation do not match")
    ∧ (nu.Email = "not-an-email" →
        NewUser.Validate L nu = some (GoError.errorf "Invalid Email"))
    ∧ (nu.Password = "abc" →
        NewUser.Validate L nu ≠ none
        ∧ (L.parseAddress nu.Email = none →
            NewUser.Validate L nu
              = some (GoError.errorf "Password must be at least 6 characters")))
    ∧ (nu.Password = "secret1" → nu.PasswordConf = "secret2" →
        NewUser.Validate L nu ≠ none
        ∧ (L.parseAddress nu.Email = none →
            NewUser.Validate L nu
              = some (GoError.errorf "Password and confirmation do not match"))) := by
  have hbad : ∀ nu1 : NewUser, L.parseAddress nu1.Email ≠ none →
      NewUser.Validate L nu1 = some (GoError.errorf "Invalid Email") := by
    intro nu1 h
    cases hp : L.parseAddress nu1.Email with
    | none => exact absurd hp h
    | some e => exact validate_of_parse_error L nu1 e hp
  refine ⟨hbad nu, validate_of_short L nu, ?_, errors_distinct E, ?_, ?_, ?_⟩
  · constructor
    · intro hv
      cases hp : L.parseAddress nu.Email with
      | some e =>
        rw [validate_of_parse_error L nu e hp] at hv
        exact absurd (Option.some.inj hv) (errors_distinct E).2.1
      | none =>
        by_cases hlen : goLen nu.Password < 6
        · rw [validate_of_short L nu hp hlen] at hv
          exact absurd (Option.some.inj hv) (errors_distinct E).2.2
        · by_cases heq : nu.Password = nu.PasswordConf
          · rw [validate_of_ok L nu hp (by omega) heq] at hv; cases hv
          · exact ⟨rfl, by omega, heq⟩
    · rintro ⟨hp, hlen, hne⟩
      exact validate_of_mismatch L nu hp hlen hne
  · intro hmail
    apply hbad
    intro hp
    have hmem := hAt nu.Email hp
    rw [hmail] at hmem
    revert hmem
    decide
  · intro hpw
    have hlen : goLen nu.Password < 6 := by rw [hpw]; decide
    refine ⟨?_, fun hp => validate_of_short L nu hp hlen⟩
    cases hp : L.parseAddress nu.Email with
    | some e => rw [validate_of_parse_error L nu e hp]; simp
    | none => rw [validate_of_short L nu hp hlen]; simp
  · intro hpw hconf
    have hlen : 6 ≤ goLen nu.Password := by rw [hpw]; decide
    have hne : nu.Password ≠ nu.PasswordConf := by rw [hpw, hconf]; decide
    refine ⟨?_, fun hp => validate_of_mismatch L nu hp hlen hne⟩
    cases hp : L.parseAddress nu.Email with
    | some e => rw [validate_of_parse_error L nu e hp]; simp
    | none => rw [validate_of_mismatch L nu hp hlen hne]; simp

/-- The stand-in parser accepts only addresses holding an `@`. -/
theorem stubLib_parse_at (s : String) (h : stubLib.parseAddress s = none) : '@' ∈ s.toList := by
  simp only [stubLib] at h
  by_contra hc
  rw [if_neg hc] at h
  cases h

/-- C2, at a concrete input: with the stand-in library, the request with email
"not-an-email", password "secret1" and confirmation "secret2" fails with the
email failure, the first rule in the order. -/
theorem validate_first_failure_wins_witness :
    (∀ s : String, stubLib.parseAddress s = none → '@' ∈ s.toList)
    ∧ NewUser.Validate stubLib ⟨"not-an-email", "secret1", "secret2", "Ann", "Lee"⟩
        = some (GoError.errorf "Invalid Email") :=
  ⟨stubLib_parse_at,
   (validate_first_failure_wins stubLib ⟨"not-an-email", "secret1", "secret2", "Ann", "Lee"⟩
      stubLib_parse_at).2.2.2.2.1 rfl⟩

/-! ## Signup to account conversion -/

theorem setPassword_of_error {E : Type} (L : Lib E) (w : World) (u : User) (password : String)
    (e : E) (hg : L.generateFromPassword w.rng (goBytes password) 10 = Except.error e) :
    User.SetPassword L w u password = (w.afterHash password, u, some (GoError.lib e)) := by
  simp [User.SetPassword, hg, World.afterHash]

theorem setPassword_of_ok {E : Type} (L : Lib E) (w : World) (u : User) (password : String)
    (d : Bytes) (hg : L.generateFromPassword w.rng (goBytes password) 10 = Except.ok d) :
    User.SetPassword L w u password
      = (w.afterHash password, ⟨u.ID, u.Email, d, u.FirstName, u.LastName, u.JoinDate⟩, none) := by
  simp [User.SetPassword, hg, World.afterHash]

theorem toUser_of_invalid {E : Type} (L : Lib E) (w : World) (nu : NewUser) (err : GoError E)
    (hv : NewUser.Validate L nu = some err) :
    NewUser.ToUser L w nu = (w, none, some err) := by
  simp [NewUser.ToUser, hv]

theorem toUser_of_valid {E : Type} (L : Lib E) (w : World) (nu : NewUser)
    (hv : NewUser.Validate L nu = none) :
    NewUser.ToUser L w nu
      = ((User.SetPassword L w (nu.draft w) nu.Password).1,
         some (User.SetPassword L w (nu.draft w) nu.Password).2.1, none) := by
  simp [NewUser.ToUser, hv, NewUser.draft, User.zero]

/-- When hashing succeeds and the comparison primitive accepts exactly the
password the digest was made from, the account of `ToUser` authenticates the
original password and no other. -/
theorem toUser_authenticate_of_hash_ok {E : Type} (L : Lib E) (w : World) (nu : NewUser)
    (d : Bytes) (hv : NewUser.Validate L nu = none)
    (hg : L.generateFromPassword w.rng (goBytes nu.Password) 10 = Except.ok d)
    (hsound : ∀ p : String, L.compareHashAndPassword d (goBytes p) = none ↔ p = nu.Password) :
    ∃ u : User, (NewUser.ToUser L w nu).2.1 = some u
      ∧ (User.Authenticate L u nu.Password).2 = none
      ∧ ∀ p : String, p ≠ nu.Password → (User.Authenticate L u p).2 ≠ none := by
  refine ⟨⟨0, nu.Email, d, nu.FirstName, nu.LastName, w.now.formatJoinDate⟩, ?_, ?_, ?_⟩
  · rw [toUser_of_valid L w nu hv, setPassword_of_ok L w _ _ d hg]; rfl
  · simp [User.Authenticate, (hsound nu.Password).2 rfl]
  · intro p hp
    cases hc : L.compareHashAndPassword d (goBytes p) with
    | none => exact absurd ((hsound p).1 hc) hp
    | some e => simp [User.Authenticate, hc]

/-- C3. The code does not surface a hashing failure: for every request that
passes validation, when the hash primitive fails with `e`, `SetPassword`
reports `e`, yet `ToUser` returns a nil error together with an account whose
digest is empty (user.go:91 drops the error of `SetPassword`). -/
theorem toUser_drops_hash_error {E : Type} (L : Lib E) (w : World) (nu : NewUser) (e : E)
    (hv : NewUser.Validate L nu = none)
    (hg : L.generateFromPassword w.rng (goBytes nu.Password) 10 = Except.error e) :
    (User.SetPassword L w (nu.draft w) nu.Password).2.2 = some (GoError.lib e)
    ∧ NewUser.ToUser L w nu
        = (w.afterHash nu.Password,
           some ⟨0, nu.Email, [], nu.FirstName, nu.LastName, w.now.formatJoinDate⟩, none) := by
  rw [toUser_of_valid L w nu hv, setPassword_of_error L w _ _ e hg]
  exact ⟨rfl, rfl⟩

/-- C3, at the failing input: the request with a 73-byte password passes
validation, the hash primitive rejects the password, and `ToUser` reports
success with an account that has no digest. -/
theorem toUser_drops_hash_error_witness :
    NewUser.Validate stubLib longPasswordRequest = none
    ∧ stubLib.generateFromPassword world0.rng (goBytes longPasswordRequest.Password) 10
        = Except.error StubError.passwordTooLong
    ∧ NewUser.ToUser stubLib world0 longPasswordRequest
        = (world0.afterHash longPassword,
           some ⟨0, "ann@example.com", [], "Ann", "Lee", "11-04-2026"⟩, none) :=
  ⟨by decide, rfl,
   (toUser_drops_hash_error stubLib world0 longPasswordRequest StubError.passwordTooLong
      (by decide) rfl).2⟩

/-- C4. The account of a valid request need not authenticate the original
password: when the hash primitive fails and the comparison primitive rejects
the empty digest, `ToUser` still returns an account, with an empty digest, and
`Authenticate` with the request's own password fails on it. -/
theorem toUser_account_rejects_original {E : Type} (L : Lib E) (w : World) (nu : NewUser)
    (e e2 : E) (hv : NewUser.Validate L nu = none)
    (hg : L.generateFromPassword w.rng (goBytes nu.Password) 10 = Except.error e)
    (hc : L.compareHashAndPassword [] (goBytes nu.Password) = some e2) :
    ∃ u : User, (NewUser.ToUser L w nu).2.1 = some u ∧ (NewUser.ToUser L w nu).2.2 = none
      ∧ u.PassHash = []
      ∧ (User.Authenticate L u nu.Password).2 = some (GoError.lib e2) := by
  refine ⟨nu.draft w, ?_, ?_, rfl, ?_⟩
  · rw [toUser_of_valid L w nu hv, setPassword_of_error L w _ _ e hg]
  · rw [toUser_of_valid L w nu hv]
  · simp [User.Authenticate, NewUser.draft, hc]

/-- C4, at the failing input: for the valid request with a 73-byte password
`ToUser` returns an account on which `Authenticate` with that same password
fails. -/
theorem toUser_account_rejects_original_witness :
    NewUser.Validate stubLib longPasswordRequest = none
    ∧ ∃ u : User, (NewUser.ToUser stubLib world0 longPasswordRequest).2.1 = some u
        ∧ (NewUser.ToUser stubLib world0 longPasswordRequest).2.2 = none
        ∧ u.PassHash = []
        ∧ (User.Authenticate stubLib u longPasswordRequest.Password).2
            = some (GoError.lib StubError.hashTooShort) :=
  ⟨by decide,
   toUser_account_rejects_original stubLib world0 longPasswordRequest
     StubError.passwordTooLong StubError.hashTooShort (by decide) rfl (by decide)⟩

/-- C5. When `Validate` fails, `ToUser` returns no account, exactly the error
of `Validate`, and makes no call to the hash primitive: the trace of hash calls,
and the whole world, are unchanged. -/
theorem toUser_propagates_validate_error {E : Type} (L : Lib E) (w : World) (nu : NewUser)
    (hv : NewUser.Validate L nu ≠ none) :
    (NewUser.ToUser L w nu).2.1 = none
    ∧ (NewUser.ToUser L w nu).2.2 = NewUser.Validate L nu
    ∧ (NewUser.ToUser L w nu).1.hashCalls = w.hashCalls
    ∧ (NewUser.ToUser L w nu).1 = w := by
  cases hE : NewUser.Validate L nu with
  | none => exact absurd hE hv
  | some err => rw [toUser_of_invalid L w nu err hE]; exact ⟨rfl, rfl, rfl, rfl⟩

/-- C5, at a concrete input: the request with email "not-an-email" is turned
down by `ToUser` with the email failure, no account and no hash call. -/
theorem toUser_propagates_validate_error_witness :
    NewUser.Validate stubLib ⟨"not-an-email", "secret1", "secret1", "Ann", "Lee"⟩
        = some (GoError.errorf "Invalid Email")
    ∧ (NewUser.ToUser stubLib world0 ⟨"not-an-email", "secret1", "secret1", "Ann", "Lee"⟩).2.1
        = none
    ∧ (NewUser.ToUser stubLib world0 ⟨"not-an-email", "secret1", "secret1", "Ann", "Lee"⟩).2.2
        = some (GoError.errorf "Invalid Email")
    ∧ (NewUser.ToUser stubLib world0 ⟨"not-an-email", "secret1", "secret1", "Ann", "Lee"⟩).1.hashCalls
        = [] :=
  ⟨by decide,
   (toUser_propagates_validate_error stubLib world0
      ⟨"not-an-email", "secret1", "secret1", "Ann", "Lee"⟩ (by decide)).1,
   by decide, by decide⟩

/-- The method `SetPassword` writes no field of the account but the digest. -/
theorem setPassword_frame {E : Type} (L : Lib E) (w : World) (u : User) (password : String) :
    (User.SetPassword L w u password).2.1.ID = u.ID
    ∧ (User.SetPassword L w u password).2.1.Email = u.Email
    ∧ (User.SetPassword L w u password).2.1.FirstName = u.FirstName
    ∧ (User.SetPassword L w u password).2.1.LastName = u.LastName
    ∧ (User.SetPassword L w u password).2.1.JoinDate = u.JoinDate := by
  cases hg : L.generateFromPassword w.rng (goBytes password) 10 with
  | error e => rw [setPassword_of_error L w u password e hg]; exact ⟨rfl, rfl, rfl, rfl, rfl⟩
  | ok d => rw [setPassword_of_ok L w u password d hg]; exact ⟨rfl, rfl, rfl, rfl, rfl⟩

/-- The layout of user.go:89 on a calendar date with a year of at most four
digits: two digits of the month, `-`, two digits of the day, `-`, four digits
of the year. -/
theorem formatJoinDate_of_calendar (t : Time) (hm : t.month ≤ 12) (hd : t.day ≤ 31)
    (hy0 : 0 ≤ t.year) (hy : t.year ≤ 9999) :
    t.formatJoinDate = String.mk
      [Nat.digitChar (t.month / 10), Nat.digitChar (t.month % 10), '-',
       Nat.digitChar (t.day / 10), Nat.digitChar (t.day % 10), '-',
       Nat.digitChar (t.year.toNat / 1000), Nat.digitChar (t.year.toNat / 100 % 10),
       Nat.digitChar (t.year.toNat / 10 % 10), Nat.digitChar (t.year.toNat % 10)] := by
  obtain ⟨y, m, d⟩ := t
  obtain ⟨n, rfl⟩ := Int.eq_ofNat_of_zero_le hy0
  simp only at hm hd hy
  have hn : n < 10000 := by omega
  have hm2 : m < 100 := by omega
  have hd2 : d < 100 := by omega
  have e1 : n / 100 / 10 = n / 1000 := by omega
  have e2 : n % 100 / 10 = n / 10 % 10 := by omega
  have e3 : n % 100 % 10 = n % 10 := by omega
  have s1 : ¬ ((m : Int) < 0) := by omega
  have s2 : ¬ ((d : Int) < 0) := by omega
  have s3 : ¬ ((n : Int) < 0) := by omega
  simp [Time.formatJoinDate, appendInt, hn, hm2, hd2, e1, e2, e3, s1, s2, s3]

/-- C6. When `ToUser` succeeds, the account it returns has the request's first
name, last name and email unchanged, the identifier 0, and as join date the
clock's date in the layout "01-02-2006"; for a calendar date (month 1..12, day
1..31, year 0..9999) that is two digits of the month, `-`, two digits of the
day, `-`, and four digits of the year. -/
theorem toUser_account_fields {E : Type} (L : Lib E) (w : World) (nu : NewUser)
    (hok : (NewUser.ToUser L w nu).2.2 = none) :
    ∃ u : User, (NewUser.ToUser L w nu).2.1 = some u
      ∧ u.FirstName = nu.FirstName ∧ u.LastName = nu.LastName ∧ u.Email = nu.Email
      ∧ u.ID = 0
      ∧ u.JoinDate = w.now.formatJoinDate
      ∧ (1 ≤ w.now.month ∧ w.now.month ≤ 12 ∧ 1 ≤ w.now.day ∧ w.now.day ≤ 31
          ∧ 0 ≤ w.now.year ∧ w.now.year ≤ 9999 →
        u.JoinDate = String.mk
          [Nat.digitChar (w.now.month / 10), Nat.digitChar (w.now.month % 10), '-',
           Nat.digitChar (w.now.day / 10), Nat.digitChar (w.now.day % 10), '-',
           Nat.digitChar (w.now.year.toNat / 1000), Nat.digitChar (w.now.year.toNat / 100 % 10),
           Nat.digitChar (w.now.year.toNat / 10 % 10), Nat.digitChar (w.now.year.toNat % 10)]) := by
  cases hv : NewUser.Validate L nu with
  | some err => rw [toUser_of_invalid L w nu err hv] at hok; cases hok
  | none =>
    obtain ⟨hid, hmail, hfn, hln, hjd⟩ := setPassword_frame L w (nu.draft w) nu.Password
    refine ⟨(User.SetPassword L w (nu.draft w) nu.Password).2.1, ?_, hfn, hln, hmail, hid, hjd, ?_⟩
    · rw [toUser_of_valid L w nu hv]
    · rintro ⟨-, hm, -, hd, hy0, hy⟩
      rw [hjd]
      exact formatJoinDate_of_calendar w.now hm hd hy0 hy

/-- C6, at a concrete input: on 4 November 2026 the request of Ann Lee is
converted to an account with her names and email, identifier 0 and join date
"11-04-2026". -/
theorem toUser_account_fields_witness :
    (NewUser.ToUser stubLib world0 ⟨"ann@example.com", "secret1", "secret1", "Ann", "Lee"⟩).2.2
        = none
    ∧ ∃ u : User,
        (NewUser.ToUser stubLib world0 ⟨"ann@example.com", "secret1", "secret1", "Ann", "Lee"⟩).2.1
          = some u
        ∧ u.FirstName = "Ann" ∧ u.LastName = "Lee" ∧ u.Email = "ann@example.com"
        ∧ u.ID = 0 ∧ u.JoinDate = "11-04-2026" := by
  obtain ⟨u, h1, h2, h3, h4, h5, h6, -⟩ :=
    toUser_account_fields stubLib world0
      ⟨"ann@example.com", "secret1", "secret1", "Ann", "Lee"⟩ (by decide)
  exact ⟨by decide, u, h1, h2, h3, h4, h5, by rw [h6]; decide⟩

/-! ## Profile update and full name -/

/-- A string has Go length 0 exactly when it is the empty string. -/
theorem goLen_eq_zero_iff (s : String) : goLen s = 0 ↔ s = "" := by
  obtain ⟨cs⟩ := s
  cases cs with
  | nil => simp [goLen, String.utf8ByteSize, String.utf8ByteSize.go]
  | cons c cs =>
    have hpos := Char.utf8Size_pos c
    have hne : (String.mk (c :: cs)) ≠ "" := by
      intro h
      have := congrArg String.data h
      simp at this
    simp only [goLen, String.utf8ByteSize, String.utf8ByteSize.go, hne, iff_false]
    omega

/-- C7. `ApplyUpdates` fails exactly when the first and the last name of the
edit are both empty; when it succeeds the account carries the two names of the
edit, so the edit ("Ann", "") succeeds and leaves the last name empty whatever
it was, and the edit ("", "") fails. -/
theorem applyUpdates_fails_iff_and_overwrites (E : Type) (u : User) (updates : Updates) :
    ((User.ApplyUpdates E u updates).2 ≠ none
        ↔ updates.FirstName = "" ∧ updates.LastName = "")
    ∧ ((User.ApplyUpdates E u updates).2 = none →
        (User.ApplyUpdates E u updates).1.FirstName = updates.FirstName
        ∧ (User.ApplyUpdates E u updates).1.LastName = updates.LastName)
    ∧ ((User.ApplyUpdates E u ⟨"Ann", ""⟩).2 = none
        ∧ (User.ApplyUpdates E u ⟨"Ann", ""⟩).1.FirstName = "Ann"
        ∧ (User.ApplyUpdates E u ⟨"Ann", ""⟩).1.LastName = "")
    ∧ (User.ApplyUpdates E u ⟨"", ""⟩).2
        = some (GoError.errorf "names cannot both be null") := by
  refine ⟨?_, ?_, ⟨?_, ?_, ?_⟩, ?_⟩
  · by_cases h : updates.FirstName = "" ∧ updates.LastName = ""
    · simp [User.ApplyUpdates, h]
    · simp only [User.ApplyUpdates, if_neg h]
      simp [h]
  · intro hok
    by_cases h : updates.FirstName = "" ∧ updates.LastName = ""
    · simp [User.ApplyUpdates, h] at hok
    · rw [User.ApplyUpdates, if_neg h]
      exact ⟨rfl, rfl⟩
  · simp [User.ApplyUpdates]
  · simp [User.ApplyUpdates]
  · simp [User.ApplyUpdates]
  · simp [User.ApplyUpdates]

/-- C8. `FullName` returns "" when both names are empty, the non-empty name
alone when exactly one is empty, and otherwise the first name, one space and
the last name; the names enter the result unchanged and the account is left
as it was.  So ("", "") gives "", ("Ann", "") gives "Ann" and ("Ann", "Lee")
gives "Ann Lee". -/
theorem fullName_cases (u : User) :
    (u.FirstName = "" ∧ u.LastName = "" → (User.FullName u).2 = "")
    ∧ (u.FirstName = "" ∧ u.LastName ≠ "" → (User.FullName u).2 = u.LastName)
    ∧ (u.FirstName ≠ "" ∧ u.LastName = "" → (User.FullName u).2 = u.FirstName)
    ∧ (u.FirstName ≠ "" ∧ u.LastName ≠ "" →
        (User.FullName u).2 = u.FirstName ++ " " ++ u.LastName
        ∧ (User.FullName u).2.data = u.FirstName.data ++ ' ' :: u.LastName.data)
    ∧ (User.FullName u).1 = u
    ∧ (User.FullName ⟨u.ID, u.Email, u.PassHash, "", "", u.JoinDate⟩).2 = ""
    ∧ (User.FullName ⟨u.ID, u.Email, u.PassHash, "Ann", "", u.JoinDate⟩).2 = "Ann"
    ∧ (User.FullName ⟨u.ID, u.Email, u.PassHash, "Ann", "Lee", u.JoinDate⟩).2 = "Ann Lee" := by
  refine ⟨?_, ?_, ?_, ?_, ?_, ?_, ?_, ?_⟩
  · rintro ⟨h1, h2⟩
    simp [User.FullName, goLen_eq_zero_iff, h1, h2]
  · rintro ⟨h1, h2⟩
    simp [User.FullName, goLen_eq_zero_iff, h1, h2]
  · rintro ⟨h1, h2⟩
    simp [User.FullName, goLen_eq_zero_iff, h1, h2]
  · rintro ⟨h1, h2⟩
    simp [User.FullName, goLen_eq_zero_iff, h1, h2]
  · unfold User.FullName
    split_ifs <;> rfl
  · simp [User.FullName, goLen_eq_zero_iff]
  · simp [User.FullName, goLen_eq_zero_iff]
  · have h1 : ("Ann" : String) ≠ "" := by decide
    have h2 : ("Lee" : String) ≠ "" := by decide
    simp only [User.FullName, goLen_eq_zero_iff, h1, h2, false_and, if_false]
    decide

/-! ## Password hashing -/

/-- C9. The work-factor `SetPassword` hands to the hash primitive is not the
configured `bcryptCost`: the digest it stores is the one the primitive makes at
cost 10, and 10 is not the initial value 13 of the variable.  With the stand-in
library, whose digest starts with the cost byte, and `bcryptCost` at 13, the
digest stored for "secret1" starts with 10, while the digest the primitive
makes at cost `bcryptCost` starts with 13; the two differ. -/
theorem setPassword_cost_not_bcryptCost {E : Type} (L : Lib E) (w : World) (u : User)
    (password : String) :
    (∀ d : Bytes, L.generateFromPassword w.rng (goBytes password) 10 = Except.ok d →
        (User.SetPassword L w u password).2.1.PassHash = d)
    ∧ (10 : Int) ≠ bcryptCostDefault
    ∧ world0.bcryptCost = 13
    ∧ stubLib.generateFromPassword world0.rng (goBytes "secret1") world0.bcryptCost
        = Except.ok (13 :: 0 :: goBytes "secret1")
    ∧ (User.SetPassword stubLib world0 User.zero "secret1").2.1.PassHash
        = 10 :: 0 :: goBytes "secret1"
    ∧ (User.SetPassword stubLib world0 User.zero "secret1").2.1.PassHash
        ≠ 13 :: 0 :: goBytes "secret1" := by
  refine ⟨?_, by decide, rfl, rfl, by decide, by decide⟩
  intro d hg
  rw [setPassword_of_ok L w u password d hg]

/-- C10. `SetPassword` fails exactly when the hash primitive fails, and then
returns the primitive's error; when the primitive succeeds with digest `d`,
`SetPassword` returns nil and the account's `PassHash` is `d`, whatever digest
it held before. -/
theorem setPassword_fails_iff_primitive_fails {E : Type} (L : Lib E) (w : World) (u : User)
    (password : String) :
    ((User.SetPassword L w u password).2.2 ≠ none
        ↔ ∃ e : E, L.generateFromPassword w.rng (goBytes password) 10 = Except.error e)
    ∧ (∀ e : E, L.generateFromPassword w.rng (goBytes password) 10 = Except.error e →
        (User.SetPassword L w u password).2.2 = some (GoError.lib e))
    ∧ (∀ d : Bytes, L.generateFromPassword w.rng (goBytes password) 10 = Except.ok d →
        (User.SetPassword L w u password).2.2 = none
        ∧ (User.SetPassword L w u password).2.1.PassHash = d) := by
  refine ⟨?_, ?_, ?_⟩
  · cases hg : L.generateFromPassword w.rng (goBytes password) 10 with
    | error e => rw [setPassword_of_error L w u password e hg]; simp
    | ok d => rw [setPassword_of_ok L w u password d hg]; simp
  · intro e hg
    rw [setPassword_of_error L w u password e hg]
  · intro d hg
    rw [setPassword_of_ok L w u password d hg]
    exact ⟨rfl, rfl⟩

/-! ## Authentication -/

/-- C11, as stated, fails: with the stand-in library an account with an empty
digest is turned down with the too-short error, and an account holding the
digest of "secret1" turns down "secret2" with the mismatch error; the two
failures are different errors, so non-matching cases do not all fail with one
generic error. -/
theorem authenticate_errors_not_uniform :
    (User.Authenticate stubLib ⟨0, "ann@example.com", [], "Ann", "Lee", "11-04-2026"⟩
        "secret1").2 = some (GoError.lib StubError.hashTooShort)
    ∧ (User.Authenticate stubLib
        ⟨0, "ann@example.com", 10 :: 0 :: goBytes "secret1", "Ann", "Lee", "11-04-2026"⟩
        "secret2").2 = some (GoError.lib StubError.mismatchedHashAndPassword)
    ∧ ¬ (∀ (u1 u2 : User) (p1 p2 : String),
          (User.Authenticate stubLib u1 p1).2 ≠ none →
          (User.Authenticate stubLib u2 p2).2 ≠ none →
          (User.Authenticate stubLib u1 p1).2 = (User.Authenticate stubLib u2 p2).2) := by
  have h1 : (User.Authenticate stubLib ⟨0, "ann@example.com", [], "Ann", "Lee", "11-04-2026"⟩
      "secret1").2 = some (GoError.lib StubError.hashTooShort) := by decide
  have h2 : (User.Authenticate stubLib
      ⟨0, "ann@example.com", 10 :: 0 :: goBytes "secret1", "Ann", "Lee", "11-04-2026"⟩
      "secret2").2 = some (GoError.lib StubError.mismatchedHashAndPassword) := by decide
  refine ⟨h1, h2, ?_⟩
  intro hall
  have h3 := hall ⟨0, "ann@example.com", [], "Ann", "Lee", "11-04-2026"⟩
    ⟨0, "ann@example.com", 10 :: 0 :: goBytes "secret1", "Ann", "Lee", "11-04-2026"⟩
    "secret1" "secret2" (by rw [h1]; simp) (by rw [h2]; simp)
  rw [h1, h2] at h3
  cases h3

/-- C11, amended. `Authenticate` succeeds exactly when the comparison primitive
accepts the password for the stored digest; in every other case it fails with
exactly the error the primitive returned; and it leaves the account as it
was. -/
theorem authenticate_returns_primitive_result {E : Type} (L : Lib E) (u : User)
    (password : String) :
    ((User.Authenticate L u password).2 = none
        ↔ L.compareHashAndPassword u.PassHash (goBytes password) = none)
    ∧ (∀ e : E, L.compareHashAndPassword u.PassHash (goBytes password) = some e →
        (User.Authenticate L u password).2 = some (GoError.lib e))
    ∧ (User.Authenticate L u password).1 = u := by
  refine ⟨?_, ?_, rfl⟩
  · cases hc : L.compareHashAndPassword u.PassHash (goBytes password) <;>
      simp [User.Authenticate, hc]
  · intro e hc
    simp [User.Authenticate, hc]

/-- C12. The result of `Authenticate` depends only on the stored digest and
the password: two accounts with the same digest, whatever their identifier,
email, names and join date, give the same outcome and the same error for every
password, namely the result of the comparison primitive on that digest. -/
theorem authenticate_depends_on_digest_only {E : Type} (L : Lib E) (u1 u2 : User)
    (password : String) (hdigest : u1.PassHash = u2.PassHash) :
    (User.Authenticate L u1 password).2 = (User.Authenticate L u2 password).2
    ∧ ((User.Authenticate L u1 password).2 = none
        ↔ (User.Authenticate L u2 password).2 = none)
    ∧ (User.Authenticate L u1 password).2
        = (L.compareHashAndPassword u2.PassHash (goBytes password)).map GoError.lib := by
  have heq : (User.Authenticate L u1 password).2 = (User.Authenticate L u2 password).2 := by
    unfold User.Authenticate
    rw [hdigest]
  refine ⟨heq, ?_, ?_⟩
  · rw [heq]
  · rw [heq]
    rfl

/-- C12, at a concrete input: two accounts with different identifiers, emails,
names and join dates and the same digest turn down the password "secret2" with
the same error. -/
theorem authenticate_depends_on_digest_only_witness :
    (User.Authenticate stubLib
        ⟨1, "ann@example.com", 10 :: 0 :: goBytes "secret1", "Ann", "Lee", "11-04-2026"⟩
        "secret2").2
      = (User.Authenticate stubLib
        ⟨2, "bob@example.com", 10 :: 0 :: goBytes "secret1", "Bob", "Ray", "01-02-2025"⟩
        "secret2").2
    ∧ (User.Authenticate stubLib
        ⟨1, "ann@example.com", 10 :: 0 :: goBytes "secret1", "Ann", "Lee", "11-04-2026"⟩
        "secret2").2 = some (GoError.lib StubError.mismatchedHashAndPassword) :=
  ⟨(authenticate_depends_on_digest_only stubLib
      ⟨1, "ann@example.com", 10 :: 0 :: goBytes "secret1", "Ann", "Lee", "11-04-2026"⟩
      ⟨2, "bob@example.com", 10 :: 0 :: goBytes "secret1", "Bob", "Ray", "01-02-2025"⟩
      "secret2" rfl).1,
   by decide⟩

/-! ## Frame conditions -/

/-- C13. `ApplyUpdates` leaves the identifier, email, digest and join date
unchanged; `SetPassword` leaves the identifier, email, names and join date
unchanged; `FullName` and `Authenticate` leave the whole account unchanged. -/
theorem operations_frame {E : Type} (L : Lib E) (w : World) (u : User) (updates : Updates)
    (password : String) :
    ((User.ApplyUpdates E u updates).1.ID = u.ID
      ∧ (User.ApplyUpdates E u updates).1.Email = u.Email
      ∧ (User.ApplyUpdates E u updates).1.PassHash = u.PassHash
      ∧ (User.ApplyUpdates E u updates).1.JoinDate = u.JoinDate)
    ∧ ((User.SetPassword L w u password).2.1.ID = u.ID
      ∧ (User.SetPassword L w u password).2.1.Email = u.Email
      ∧ (User.SetPassword L w u password).2.1.FirstName = u.FirstName
      ∧ (User.SetPassword L w u password).2.1.LastName = u.LastName
      ∧ (User.SetPassword L w u password).2.1.JoinDate = u.JoinDate)
    ∧ (User.FullName u).1 = u
    ∧ (User.Authenticate L u password).1 = u := by
  refine ⟨?_, setPassword_frame L w u password, ?_, rfl⟩
  · by_cases h : updates.FirstName = "" ∧ updates.LastName = ""
    · rw [User.ApplyUpdates, if_pos h]; exact ⟨rfl, rfl, rfl, rfl⟩
    · rw [User.ApplyUpdates, if_neg h]; exact ⟨rfl, rfl, rfl, rfl⟩
  · unfold User.FullName
    split_ifs <;> rfl

/-! ## Failure reasons -/

/-- C14, as stated, fails: the failure of `Validate` on the email
"not-an-email" carries the message "Invalid Email", which is none of "invalid
email", "password too short" and "password/confirmation mismatch", and the
failure of `ApplyUpdates` on the edit ("", "") carries "names cannot both be
null", not "names cannot both be empty". -/
theorem failure_reasons_differ_from_listed :
    NewUser.Validate stubLib ⟨"not-an-email", "secret1", "secret1", "Ann", "Lee"⟩
        = some (GoError.errorf "Invalid Email")
    ∧ NewUser.Validate stubLib ⟨"not-an-email", "secret1", "secret1", "Ann", "Lee"⟩
        ≠ some (GoError.errorf "invalid email")
    ∧ NewUser.Validate stubLib ⟨"not-an-email", "secret1", "secret1", "Ann", "Lee"⟩
        ≠ some (GoError.errorf "password too short")
    ∧ NewUser.Validate stubLib ⟨"not-an-email", "secret1", "secret1", "Ann", "Lee"⟩
        ≠ some (GoError.errorf "password/confirmation mismatch")
    ∧ (User.ApplyUpdates StubError User.zero ⟨"", ""⟩).2
        = some (GoError.errorf "names cannot both be null")
    ∧ (User.ApplyUpdates StubError User.zero ⟨"", ""⟩).2
        ≠ some (GoError.errorf "names cannot both be empty") := by
  refine ⟨by decide, by decide, by decide, by decide, by decide, by decide⟩

/-- C14, amended. Every failure of `Validate` carries one of the three messages
"Invalid Email", "Password must be at least 6 characters" and "Password and
confirmation do not match", and every failure of `ApplyUpdates` carries the
message "names cannot both be null". -/
theorem failure_reasons_enumerated {E : Type} (L : Lib E) (nu : NewUser) (u : User)
    (updates : Updates) :
    (NewUser.Validate L nu = none
      ∨ NewUser.Validate L nu = some (GoError.errorf "Invalid Email")
      ∨ NewUser.Validate L nu = some (GoError.errorf "Password must be at least 6 characters")
      ∨ NewUser.Validate L nu
          = some (GoError.errorf "Password and confirmation do not match"))
    ∧ ((User.ApplyUpdates E u updates).2 = none
      ∨ (User.ApplyUpdates E u updates).2
          = some (GoError.errorf "names cannot both be null")) := by
  constructor
  · cases hp : L.parseAddress nu.Email with
    | some e => exact Or.inr (Or.inl (validate_of_parse_error L nu e hp))
    | none =>
      by_cases hlen : goLen nu.Password < 6
      · exact Or.inr (Or.inr (Or.inl (validate_of_short L nu hp hlen)))
      · by_cases heq : nu.Password = nu.PasswordConf
        · exact Or.inl (validate_of_ok L nu hp (by omega) heq)
        · exact Or.inr (Or.inr (Or.inr (validate_of_mismatch L nu hp (by omega) heq)))
  · by_cases h : updates.FirstName = "" ∧ updates.LastName = ""
    · right; rw [User.ApplyUpdates, if_pos h]
    · left; rw [User.ApplyUpdates, if_neg h]

/-! ## The length rule counts bytes -/

/-- The Go length of a string is the length of its byte sequence. -/
theorem goLen_eq_length_goBytes (s : String) : goLen s = (goBytes s).length := by
  have h := String.size_toUTF8 s
  simp only [ByteArray.size, Array.size] at h
  simp only [goLen, goBytes]
  exact h.symm

/-- A string has at least as many bytes as characters. -/
theorem length_le_goLen (s : String) : s.length ≤ goLen s := by
  obtain ⟨cs⟩ := s
  simp only [goLen, String.utf8ByteSize, String.length]
  induction cs with
  | nil => simp [String.utf8ByteSize.go]
  | cons c cs ih =>
    have hpos := Char.utf8Size_pos c
    simp only [String.utf8ByteSize.go, List.length_cons]
    omega

/-- C15. The length rule of `Validate` counts the bytes of the UTF-8 encoding:
the too-short failure is returned exactly when the email parses and the byte
length of the password is below 6.  So "ééé", three characters of two bytes
each, passes the rule (and, confirmed, validates), and every password of at
least 6 characters passes it. -/
theorem validate_length_rule_counts_bytes {E : Type} (L : Lib E) (nu : NewUser) :
    goLen nu.Password = (goBytes nu.Password).length
    ∧ (NewUser.Validate L nu = some (GoError.errorf "Password must be at least 6 characters")
        ↔ L.parseAddress nu.Email = none ∧ (goBytes nu.Password).length < 6)
    ∧ (("ééé" : String).length = 3 ∧ (goBytes "ééé").length = 6
        ∧ (L.parseAddress nu.Email = none →
            NewUser.Validate L ⟨nu.Email, "ééé", "ééé", nu.FirstName, nu.LastName⟩ = none))
    ∧ (6 ≤ nu.Password.length →
        NewUser.Validate L nu ≠ some (GoError.errorf "Password must be at least 6 characters"))
    := by
  have hiff : NewUser.Validate L nu
      = some (GoError.errorf "Password must be at least 6 characters")
      ↔ L.parseAddress nu.Email = none ∧ goLen nu.Password < 6 := by
    constructor
    · intro hv
      cases hp : L.parseAddress nu.Email with
      | some e =>
        rw [validate_of_parse_error L nu e hp] at hv
        exact absurd (Option.some.inj hv) (errors_distinct E).1
      | none =>
        by_cases hlen : goLen nu.Password < 6
        · exact ⟨rfl, hlen⟩
        · by_cases heq : nu.Password = nu.PasswordConf
          · rw [validate_of_ok L nu hp (by omega) heq] at hv; cases hv
          · rw [validate_of_mismatch L nu hp (by omega) heq] at hv
            exact absurd (Option.some.inj hv).symm (errors_distinct E).2.2
    · rintro ⟨hp, hlen⟩
      exact validate_of_short L nu hp hlen
  refine ⟨goLen_eq_length_goBytes _, ?_, ⟨by decide, by decide, ?_⟩, ?_⟩
  · rw [← goLen_eq_length_goBytes]; exact hiff
  · intro hp
    have h6 : 6 ≤ goLen "ééé" := by decide
    exact validate_of_ok L ⟨nu.Email, "ééé", "ééé", nu.FirstName, nu.LastName⟩ hp h6 rfl
  · intro h6 hv
    have := (hiff.1 hv).2
    have := length_le_goLen nu.Password
    omega

/-! ## The work-factor -/

/-- C18. `SetPassword` always calls the hash primitive with the cost 10, which
is below the initial value 13 of `bcryptCost`, whatever the variable holds: the
result of the primitive at cost 10 decides the error and the stored digest; two
libraries that agree at cost 10 give the same result; with any value `c` in
`bcryptCost` the result is the same and the variable keeps its value; and with
the stand-in library, whose digest starts with the cost byte, the stored digest
starts with 10 for every value of `bcryptCost`. -/
theorem setPassword_cost_fixed_at_ten {E : Type} (L : Lib E) (w : World) (u : User)
    (password : String) (c : Int) :
    ((∀ e : E, L.generateFromPassword w.rng (goBytes password) 10 = Except.error e →
        (User.SetPassword L w u password).2 = (u, some (GoError.lib e)))
      ∧ (∀ d : Bytes, L.generateFromPassword w.rng (goBytes password) 10 = Except.ok d →
        (User.SetPassword L w u password).2
          = (⟨u.ID, u.Email, d, u.FirstName, u.LastName, u.JoinDate⟩, none)))
    ∧ (∀ L2 : Lib E,
        (∀ (rng : Nat) (p : Bytes),
          L2.generateFromPassword rng p 10 = L.generateFromPassword rng p 10) →
        (User.SetPassword L2 w u password).2 = (User.SetPassword L w u password).2)
    ∧ ((10 : Int) < bcryptCostDefault ∧ bcryptCostDefault = 13)
    ∧ (User.SetPassword L ⟨c, w.now, w.rng, w.hashCalls⟩ u password).2
        = (User.SetPassword L w u password).2
    ∧ ((User.SetPassword L w u password).1.bcryptCost = w.bcryptCost
      ∧ (User.SetPassword L ⟨c, w.now, w.rng, w.hashCalls⟩ u password).1.bcryptCost = c)
    ∧ (User.SetPassword stubLib ⟨c, world0.now, world0.rng, world0.hashCalls⟩ User.zero
        "secret1").2.1.PassHash = 10 :: 0 :: goBytes "secret1" := by
  have hres : ∀ (M : Lib E) (v : World),
      (User.SetPassword M v u password).2
        = match M.generateFromPassword v.rng (goBytes password) 10 with
          | Except.error e => (u, some (GoError.lib e))
          | Except.ok d => (⟨u.ID, u.Email, d, u.FirstName, u.LastName, u.JoinDate⟩, none) := by
    intro M v
    cases hg : M.generateFromPassword v.rng (goBytes password) 10 with
    | error e => rw [setPassword_of_error M v u password e hg]
    | ok d => rw [setPassword_of_ok M v u password d hg]
  have hcost : (User.SetPassword L w u password).1.bcryptCost = w.bcryptCost
      ∧ (User.SetPassword L ⟨c, w.now, w.rng, w.hashCalls⟩ u password).1.bcryptCost = c := by
    constructor
    · cases hg : L.generateFromPassword w.rng (goBytes password) 10 with
      | error e => rw [setPassword_of_error L w u password e hg]; rfl
      | ok d => rw [setPassword_of_ok L w u password d hg]; rfl
    · cases hg : L.generateFromPassword (World.mk c w.now w.rng w.hashCalls).rng
          (goBytes password) 10 with
      | error e => rw [setPassword_of_error L _ u password e hg]; rfl
      | ok d => rw [setPassword_of_ok L _ u password d hg]; rfl
  refine ⟨⟨?_, ?_⟩, ?_, ⟨by decide, rfl⟩, ?_, hcost, ?_⟩
  · intro e hg
    rw [setPassword_of_error L w u password e hg]
  · intro d hg
    rw [setPassword_of_ok L w u password d hg]
  · intro L2 hagree
    rw [hres L2 w, hres L w, hagree]
  · rw [hres L ⟨c, w.now, w.rng, w.hashCalls⟩, hres L w]
  · have hg : stubLib.generateFromPassword
        (World.mk c world0.now world0.rng world0.hashCalls).rng (goBytes "secret1") 10
        = Except.ok (10 :: 0 :: goBytes "secret1") := rfl
    rw [setPassword_of_ok stubLib _ User.zero "secret1" _ hg]

/-! ## Failure leaves the account alone -/

/-- C19. When `ApplyUpdates` fails the account is exactly what it was, and when
`SetPassword` fails the account is exactly what it was; the edit ("", "") is
such a failure. -/
theorem failure_leaves_account_unchanged {E : Type} (L : Lib E) (w : World) (u : User)
    (updates : Updates) (password : String) :
    ((User.ApplyUpdates E u updates).2 ≠ none → (User.ApplyUpdates E u updates).1 = u)
    ∧ ((User.SetPassword L w u password).2.2 ≠ none →
        (User.SetPassword L w u password).2.1 = u)
    ∧ ((User.ApplyUpdates E u ⟨"", ""⟩).2 ≠ none ∧ (User.ApplyUpdates E u ⟨"", ""⟩).1 = u)
    ∧ (∀ e : E, L.generateFromPassword w.rng (goBytes password) 10 = Except.error e →
        (User.SetPassword L w u password).2.2 ≠ none
        ∧ (User.SetPassword L w u password).2.1 = u) := by
  refine ⟨?_, ?_, ?_, ?_⟩
  · intro hf
    by_cases h : updates.FirstName = "" ∧ updates.LastName = ""
    · rw [User.ApplyUpdates, if_pos h]
    · rw [User.ApplyUpdates, if_neg h] at hf
      exact absurd rfl hf
  · intro hf
    cases hg : L.generateFromPassword w.rng (goBytes password) 10 with
    | error e => rw [setPassword_of_error L w u password e hg]
    | ok d =>
      rw [setPassword_of_ok L w u password d hg] at hf
      exact absurd rfl hf
  · simp [User.ApplyUpdates]
  · intro e hg
    rw [setPassword_of_error L w u password e hg]
    exact ⟨by simp, rfl⟩

/-! ## Outward serialization -/

/-- C17. The JSON encoding of a `User` holds the identifier, the two names and
the join date and nothing else: replacing the email and the digest by any other
values gives the same document.  The encoding of a `UserOrgs` holds the
identifier, the two names and the organizations: replacing the email gives the
same document. -/
theorem json_omits_email_and_digest (u : User) (uo : UserOrgs) (email : String)
    (digest : Bytes) :
    User.json ⟨u.ID, email, digest, u.FirstName, u.LastName, u.JoinDate⟩ = User.json u
    ∧ User.json u
        = JSON.obj [("id", JSON.num u.ID), ("firstName", JSON.str u.FirstName),
            ("lastName", JSON.str u.LastName), ("joinDate", JSON.str u.JoinDate)]
    ∧ UserOrgs.json ⟨uo.ID, email, uo.FirstName, uo.LastName, uo.Orgs⟩ = UserOrgs.json uo
    ∧ ∃ orgs : JSON, UserOrgs.json uo
        = JSON.obj [("id", JSON.num uo.ID), ("firstName", JSON.str uo.FirstName),
            ("lastName", JSON.str uo.LastName), ("orgs", orgs)] := by
  have h1 : ("id" != "-") = true := by decide
  have h2 : ("-" != "-") = false := by decide
  have h3 : ("firstName" != "-") = true := by decide
  have h4 : ("lastName" != "-") = true := by decide
  have h5 : ("joinDate" != "-") = true := by decide
  have h6 : ("orgs" != "-") = true := by decide
  refine ⟨?_, ?_, ?_, ?_⟩
  · simp only [User.json, jsonStruct, List.filter, h1, h2, h3, h4, h5]
  · simp only [User.json, jsonStruct, List.filter, h1, h2, h3, h4, h5]
  · simp only [UserOrgs.json, jsonStruct, List.filter, h1, h2, h3, h4, h6]
  · refine ⟨JSON.arr (uo.Orgs.map (fun o =>
      match o with
      | none => JSON.null
      | some org => org.json)), ?_⟩
    simp only [UserOrgs.json, jsonStruct, List.filter, h1, h2, h3, h4, h6]

/-! ## Names and the full name -/

/-- C20. `FullName` returns the empty string exactly when both names are
empty; so after a successful `ApplyUpdates` the full name is not empty.
Validation does not look at the names: a request stripped of both names
validates as before, and when it is valid `ToUser` succeeds on it and returns
an account whose full name is empty. -/
theorem fullName_empty_iff_and_after_update {E : Type} (L : Lib E) (w : World) (u : User)
    (updates : Updates) (nu : NewUser) :
    ((User.FullName u).2 = "" ↔ u.FirstName = "" ∧ u.LastName = "")
    ∧ ((User.ApplyUpdates E u updates).2 = none →
        (User.FullName (User.ApplyUpdates E u updates).1).2 ≠ "")
    ∧ NewUser.Validate L ⟨nu.Email, nu.Password, nu.PasswordConf, "", ""⟩
        = NewUser.Validate L nu
    ∧ (NewUser.Validate L nu = none →
        (NewUser.ToUser L w ⟨nu.Email, nu.Password, nu.PasswordConf, "", ""⟩).2.2 = none
        ∧ ∃ a : User,
            (NewUser.ToUser L w ⟨nu.Email, nu.Password, nu.PasswordConf, "", ""⟩).2.1 = some a
            ∧ (User.FullName a).2 = "")
    ∧ (NewUser.Validate stubLib ⟨"ann@example.com", "secret1", "secret1", "", ""⟩ = none
        ∧ (NewUser.ToUser stubLib world0
            ⟨"ann@example.com", "secret1", "secret1", "", ""⟩).2.2 = none) := by
  have hfull : ∀ v : User, (User.FullName v).2 = "" ↔ v.FirstName = "" ∧ v.LastName = "" := by
    intro v
    by_cases h1 : v.FirstName = "" <;> by_cases h2 : v.LastName = ""
    · simp [User.FullName, goLen_eq_zero_iff, h1, h2]
    · simp [User.FullName, goLen_eq_zero_iff, h1, h2]
    · simp [User.FullName, goLen_eq_zero_iff, h1, h2]
    · simp only [User.FullName, goLen_eq_zero_iff, h1, h2, false_and, if_false, iff_false]
      intro h
      have hd := congrArg String.data h
      simp only [String.data_append] at hd
      have hl := congrArg List.length hd
      simp at hl
  refine ⟨hfull u, ?_, rfl, ?_, ⟨by decide, by decide⟩⟩
  · intro hok
    by_cases h : updates.FirstName = "" ∧ updates.LastName = ""
    · rw [User.ApplyUpdates, if_pos h] at hok; cases hok
    · intro hc
      have hboth := (hfull _).1 hc
      rw [User.ApplyUpdates, if_neg h] at hboth
      exact h hboth
  · intro hv
    have hv2 : NewUser.Validate L ⟨nu.Email, nu.Password, nu.PasswordConf, "", ""⟩ = none := hv
    rw [toUser_of_valid L w _ hv2]
    refine ⟨rfl, _, rfl, ?_⟩
    obtain ⟨-, -, hfn, hln, -⟩ := setPassword_frame L w
      (NewUser.draft w ⟨nu.Email, nu.Password, nu.PasswordConf, "", ""⟩) nu.Password
    exact (hfull _).2 ⟨hfn, hln⟩

end Users
